import Mathlib

/-!
# Meal Explorer: a shallow embedding of `script.js`

The module-level variables of `script.js` (`allMeals`, `filteredMeals`,
`currentPage`, the two timer handles) and the DOM elements the script reads and
writes are collected in one `State` record.  Every function of the script that
touches them becomes a pure function `State → State`; asynchronous work
(fetches, timers) is split at its completion points, which become events of a
step function.

Two JavaScript built-ins cannot be written down here: `String.prototype.toLowerCase`
(Unicode case mapping) and `String.prototype.localeCompare` (locale collation).
They are passed as a `Builtins` record and the theorems state which of their
laws they rely on.
-/

namespace MealExplorer

/-! ## Data model -/

/-- A meal record as returned by the API; only the fields the script reads. -/
structure Meal where
  idMeal : String
  strMeal : String
  strCategory : String
  strMealThumb : String
deriving DecidableEq, Repr

/-- The two string built-ins that are left abstract. -/
structure Builtins where
  toLowerCase : String → String
  localeCompare : String → String → Int

/-- The law of a consistent comparator (ECMAScript, `Array.prototype.sort`):
the sign is antisymmetric and `≤ 0` is transitive. -/
structure ConsistentCompare (cmp : String → String → Int) : Prop where
  antisymm : ∀ a b, cmp a b < 0 ↔ 0 < cmp b a
  trans : ∀ a b c, cmp a b ≤ 0 → cmp b c ≤ 0 → cmp a c ≤ 0

/-- An entry of the `#page-numbers` strip: a page button (with its `active`
class) or the `...` filler. -/
inductive PageItem where
  | number (pageNum : Int) (active : Bool)
  | ellipsis
deriving DecidableEq, Repr

/-- The contents of `#meals-container`: the "No meals found" placeholder or one
card per meal. -/
inductive Container where
  | noResults
  | cards (meals : List Meal)
deriving DecidableEq, Repr

/-- The contents of `#suggestions`: clickable suggestion items or the single
"No meals found" item. -/
inductive Suggestions where
  | items (meals : List Meal)
  | noMealsFound
deriving DecidableEq, Repr

/-- The callback a pending prev/next timer will run. -/
inductive ThrottleAction where
  | prev
  | next
deriving DecidableEq, Repr

/-- The callback of a timer scheduled by the search input handler. -/
inductive TimerAction where
  | searchMealsByName (searchTerm : String)
  | filterMeals
deriving DecidableEq, Repr

/-- The outcome of `fetch` followed by `response.json()`: it raises or yields data. -/
inductive Response (α : Type) where
  | error
  | json (data : α)
deriving Repr

/-- Module variables, DOM inputs, DOM outputs and pending timers. -/
structure State where
  allMeals : List Meal
  filteredMeals : List Meal
  currentPage : Int
  /-- The value of the search box, `searchInput.value`. -/
  searchInput : String
  /-- The value of the category select, `categoryFilter.value`. -/
  categoryFilter : String
  /-- The value of the sort select, `sortBy.value`. -/
  sortBy : String
  mealsContainer : Container
  prevDisabled : Bool
  nextDisabled : Bool
  pageNumbers : List PageItem
  suggestions : Suggestions
  suggestionsVisible : Bool
  loaderVisible : Bool
  /-- The pending prev/next callback, if any (`throttleTimer`). -/
  throttleTimer : Option ThrottleAction
  /-- The handle last stored by the input handler (`debounceTimer`). -/
  debounceTimer : Option Nat
  /-- The pending `setTimeout` callbacks of the input handler, by handle. -/
  timers : List (Nat × TimerAction)
  /-- The search terms for which a request to `search.php` has been issued. -/
  searchRequests : List String
  /-- The next handle `setTimeout` returns. -/
  nextTimerId : Nat
deriving Repr

def mealsPerPage : Nat := 9

/-! ## String primitives -/

/-- The method `String.prototype.includes`: `searchString` occurs as a contiguous run. -/
def includes (s searchString : String) : Bool :=
  decide (searchString.data <:+: s.data)

/-- WhiteSpace and LineTerminator code points of ECMAScript, as stripped by `trim`. -/
def isJSWhiteSpace (c : Char) : Bool :=
  let n := c.toNat
  n == 0x9 || n == 0xA || n == 0xB || n == 0xC || n == 0xD || n == 0x20 || n == 0xA0 ||
  n == 0x1680 || (0x2000 ≤ n && n ≤ 0x200A) || n == 0x2028 || n == 0x2029 || n == 0x202F ||
  n == 0x205F || n == 0x3000 || n == 0xFEFF

/-- The method `String.prototype.trim`. -/
def trim (s : String) : String :=
  String.mk ((s.data.dropWhile isJSWhiteSpace).reverse.dropWhile isJSWhiteSpace).reverse

/-- The `length` of a JavaScript string: its number of UTF-16 code units. -/
def jsLength (s : String) : Nat :=
  (s.data.map (fun c => if c.toNat < 0x10000 then 1 else 2)).sum

/-- The method `Array.prototype.slice(start, end)`. -/
def slice {α : Type} (l : List α) (start stop : Int) : List α :=
  let len : Int := l.length
  let k := if start < 0 then max (len + start) 0 else min start len
  let final := if stop < 0 then max (len + stop) 0 else min stop len
  (l.drop k.toNat).take (final - k).toNat

/-! ## Sorting, pagination and rendering -/

/-- The comparator `sortMeals` passes to `Array.prototype.sort`. -/
def compareMeals (B : Builtins) (sortOption : String) (a b : Meal) : Int :=
  if sortOption = "name" then B.localeCompare a.strMeal b.strMeal
  else if sortOption = "category" then B.localeCompare a.strCategory b.strCategory
  else 0

/-- The method `Array.prototype.sort(cmp)`: a stable sort, `a` staying before `b` when
`cmp a b ≤ 0`. -/
def arraySort {α : Type} (cmp : α → α → Int) (l : List α) : List α :=
  l.insertionSort (fun a b => cmp a b ≤ 0)

def sortMeals (B : Builtins) (s : State) : State :=
  let sortOption := s.sortBy
  { s with filteredMeals := arraySort (compareMeals B sortOption) s.filteredMeals }

/-- The page count, `Math.ceil(filteredMeals.length / mealsPerPage)`. -/
def totalPages (s : State) : Int :=
  Int.ofNat ((s.filteredMeals.length + (mealsPerPage - 1)) / mealsPerPage)

/-- The `startPage` and `endPage` computed by `updatePagination`. -/
def pageWindow (totalPages currentPage : Int) : Int × Int :=
  let maxVisiblePages : Int := 5
  let startPage := max 1 (currentPage - maxVisiblePages / 2)
  let endPage := min totalPages (startPage + maxVisiblePages - 1)
  let startPage :=
    if endPage - startPage + 1 < maxVisiblePages then max 1 (endPage - maxVisiblePages + 1)
    else startPage
  (startPage, endPage)

/-- What `addPageNumber(pageNum)` appends. -/
def addPageNumber (currentPage pageNum : Int) : PageItem :=
  .number pageNum (pageNum == currentPage)

/-- The children `updatePagination` appends to `#page-numbers`, in order. -/
def pageStrip (totalPages currentPage : Int) : List PageItem :=
  let (startPage, endPage) := pageWindow totalPages currentPage
  (if startPage > 1 then
      addPageNumber currentPage 1 :: (if startPage > 2 then [PageItem.ellipsis] else [])
    else [])
  ++ (List.range (endPage - startPage + 1).toNat).map
      (fun (k : Nat) => addPageNumber currentPage (startPage + (k : Int)))
  ++ (if endPage < totalPages then
      (if endPage < totalPages - 1 then [PageItem.ellipsis] else [])
        ++ [addPageNumber currentPage totalPages]
    else [])

def updatePagination (s : State) : State :=
  let totalPages := totalPages s
  { s with
    prevDisabled := s.currentPage == 1
    nextDisabled := s.currentPage == totalPages || totalPages == 0
    pageNumbers := pageStrip totalPages s.currentPage }

/-- The `mealsToDisplay` of `renderMeals`. -/
def mealsToDisplay (s : State) : List Meal :=
  let startIndex := (s.currentPage - 1) * mealsPerPage
  let endIndex := startIndex + mealsPerPage
  slice s.filteredMeals startIndex endIndex

def renderMeals (s : State) : State :=
  let mealsToDisplay := mealsToDisplay s
  updatePagination
    { s with
      mealsContainer :=
        if mealsToDisplay.length = 0 then .noResults else .cards mealsToDisplay }

def filterMeals (B : Builtins) (s : State) : State :=
  let searchTerm := B.toLowerCase s.searchInput
  let selectedCategory := s.categoryFilter
  let s := { s with
    filteredMeals := s.allMeals.filter (fun meal =>
      let matchesSearch := searchTerm == "" || includes (B.toLowerCase meal.strMeal) searchTerm
      let matchesCategory := selectedCategory == "" || meal.strCategory == selectedCategory
      matchesSearch && matchesCategory) }
  let s := sortMeals B s
  renderMeals { s with currentPage := 1 }

/-! ## Network completions -/

/-- The function `fetchMealDetails`, from the outcome of its `lookup.php` request. -/
def fetchMealDetails (r : Response (Option (List Meal))) : Option Meal :=
  match r with
  | .error => none
  | .json (some (meal :: _)) => some meal
  | .json _ => none

/-- The function `fetchMealsByCategory`, from the outcome of its `filter.php`
request; a successful answer carries `data.meals` (possibly `null`), and with
each listed meal the outcome of its detail lookup. -/
def fetchMealsByCategory (B : Builtins) (s : State)
    (r : Response (Option (List (Response (Option (List Meal)))))) : State :=
  match r with
  | .error => s
  | .json none => s
  | .json (some meals) =>
    let detailedMeals := meals.map fetchMealDetails
    let allMeals := detailedMeals.filterMap id
    let s := { s with allMeals := allMeals, filteredMeals := allMeals }
    renderMeals (sortMeals B s)

def showLoader (s : State) : State := { s with loaderVisible := true }

def hideLoader (s : State) : State := { s with loaderVisible := false }

def displaySuggestions (s : State) (meals : List Meal) : State :=
  { s with suggestions := .items (slice meals 0 5), suggestionsVisible := true }

/-- The synchronous part of `searchMealsByName`: hide the dropdown on a blank
term, else issue the request. -/
def searchMealsByName (s : State) (searchTerm : String) : State :=
  if trim searchTerm = "" then { s with suggestionsVisible := false }
  else { s with searchRequests := s.searchRequests ++ [searchTerm] }

/-- The rest of `searchMealsByName`, from the outcome of its `search.php` request. -/
def searchCompleted (s : State) (r : Response (Option (List Meal))) : State :=
  match r with
  | .error => s
  | .json (some meals) => displaySuggestions s meals
  | .json none => { s with suggestions := .noMealsFound, suggestionsVisible := true }

/-! ## Event handlers -/

/-- The click handler `displaySuggestions` attaches to the item of `meal`. -/
def suggestionClick (s : State) (meal : Meal) : State :=
  renderMeals
    { s with
      searchInput := meal.strMeal
      suggestionsVisible := false
      filteredMeals := [meal]
      currentPage := 1 }

/-- The click handler `addPageNumber` attaches to the button of `pageNum`. -/
def pageNumberClick (s : State) (pageNum : Int) : State :=
  if pageNum ≠ s.currentPage then renderMeals { s with currentPage := pageNum } else s

def setTimeout (s : State) (callback : TimerAction) : State × Nat :=
  ({ s with timers := s.timers ++ [(s.nextTimerId, callback)], nextTimerId := s.nextTimerId + 1 },
    s.nextTimerId)

def clearTimeout (s : State) (handle : Option Nat) : State :=
  match handle with
  | none => s
  | some id => { s with timers := s.timers.filter (fun t => t.1 != id) }

/-- The `input` listener of the search box, run after the box took `value`. -/
def onSearchInput (s : State) (value : String) : State :=
  let s := { s with searchInput := value }
  let s := clearTimeout s s.debounceTimer
  let searchTerm := trim s.searchInput
  let s :=
    if jsLength searchTerm > 1 then
      let (s, id) := setTimeout s (.searchMealsByName searchTerm)
      { s with debounceTimer := some id }
    else { s with suggestionsVisible := false }
  let (s, id) := setTimeout s .filterMeals
  { s with debounceTimer := some id }

/-- A pending timer of the input handler fires: it leaves the pending set and
its callback runs. -/
def timerFires (B : Builtins) (s : State) (id : Nat) : State :=
  match s.timers.find? (fun t => t.1 == id) with
  | none => s
  | some (_, callback) =>
    let s := { s with timers := s.timers.filter (fun t => t.1 != id) }
    match callback with
    | .searchMealsByName searchTerm => searchMealsByName s searchTerm
    | .filterMeals => filterMeals B s

/-- The `change` listener of the category select, up to its `await`. -/
def onCategoryChange (B : Builtins) (s : State) (value : String) : State :=
  let s := { s with categoryFilter := value }
  let selectedCategory := value
  if selectedCategory ≠ "" then showLoader s else filterMeals B s

/-- The continuation after `await fetchMealsByCategory(...)`, in `initApp` and
in the category listener. -/
def onCategoryFetchCompleted (B : Builtins) (s : State)
    (r : Response (Option (List (Response (Option (List Meal)))))) : State :=
  hideLoader (fetchMealsByCategory B s r)

/-- The `change` listener of the sort select. -/
def onSortChange (B : Builtins) (s : State) (value : String) : State :=
  renderMeals (sortMeals B { s with sortBy := value })

/-- The `click` listener of the Prev button. -/
def onPrevClick (s : State) : State :=
  if s.throttleTimer.isSome then s else { s with throttleTimer := some .prev }

/-- The `click` listener of the Next button. -/
def onNextClick (s : State) : State :=
  if s.throttleTimer.isSome then s else { s with throttleTimer := some .next }

/-- The pending prev/next timer fires after its 300ms. -/
def throttleFires (s : State) : State :=
  match s.throttleTimer with
  | none => s
  | some .prev =>
    let s := if s.currentPage > 1 then renderMeals { s with currentPage := s.currentPage - 1 } else s
    { s with throttleTimer := none }
  | some .next =>
    let totalPages := totalPages s
    let s :=
      if s.currentPage < totalPages then renderMeals { s with currentPage := s.currentPage + 1 }
      else s
    { s with throttleTimer := none }

/-- The `click` listener on `document`, for a click whose target lies outside
the search box and the suggestions dropdown: every click on a page button, on
Prev or Next, or elsewhere on the page reaches it by bubbling. -/
def onDocumentClick (s : State) : State := { s with suggestionsVisible := false }

/-! ## The application as a transition system -/

/-- The events of a session.  `categoryChange` and `sortChange` are the `change`
events of the two selects alone; a select operated with the mouse is a
`clickOutside` followed by the `change` event, one operated from the keyboard
is the `change` event only. -/
inductive Event where
  | input (value : String)
  | timerFires (id : Nat)
  | searchCompleted (r : Response (Option (List Meal)))
  | suggestionClick (meal : Meal)
  | clickOutside
  | categoryChange (value : String)
  | categoryFetchCompleted (r : Response (Option (List (Response (Option (List Meal))))))
  | sortChange (value : String)
  | pageClick (pageNum : Int)
  | prevClick
  | nextClick
  | throttleFires

/-- The state when `initApp` starts; `sortBy` is the option the page's sort
select starts on. -/
def initialState (sortBy : String) : State :=
  { allMeals := [], filteredMeals := [], currentPage := 1
    searchInput := "", categoryFilter := "", sortBy := sortBy
    mealsContainer := .cards [], prevDisabled := false, nextDisabled := false
    pageNumbers := [], suggestions := .items [], suggestionsVisible := false
    loaderVisible := true
    throttleTimer := none, debounceTimer := none, timers := [], searchRequests := []
    nextTimerId := 1 }

/-- One event.  A suggestion or a page button can be clicked only while it is
on the page.  A click on a page button, Prev or Next first runs the listener of
the button and then, by bubbling, the listener of `document`; a click on a
suggestion lies inside the dropdown, where the `document` listener does nothing. -/
def step (B : Builtins) (s : State) : Event → State
  | .input value => onSearchInput s value
  | .timerFires id => timerFires B s id
  | .searchCompleted r => searchCompleted s r
  | .suggestionClick meal =>
    match s.suggestions with
    | .items meals => if s.suggestionsVisible ∧ meal ∈ meals then suggestionClick s meal else s
    | .noMealsFound => s
  | .clickOutside => onDocumentClick s
  | .categoryChange value => onCategoryChange B s value
  | .categoryFetchCompleted r => onCategoryFetchCompleted B s r
  | .sortChange value => onSortChange B s value
  | .pageClick pageNum =>
    if addPageNumber s.currentPage pageNum ∈ s.pageNumbers then
      onDocumentClick (pageNumberClick s pageNum)
    else s
  | .prevClick => onDocumentClick (onPrevClick s)
  | .nextClick => onDocumentClick (onNextClick s)
  | .throttleFires => throttleFires s

/-- The state after a run of events from the initial state. -/
def run (B : Builtins) (sortBy : String) (events : List Event) : State :=
  events.foldl (step B) (initialState sortBy)

/-- A concrete choice of the built-ins: ASCII lower-casing and code point order. -/
def asciiBuiltins : Builtins where
  toLowerCase := fun s => String.mk (s.data.map Char.toLower)
  localeCompare := fun a b => if a < b then -1 else if a = b then 0 else 1

/-- The timer with handle `k` is the pending callback `a`, and the stored
handle is a later one. -/
def TimerKept (k : Nat) (a : TimerAction) (s : State) : Prop :=
  s.timers.find? (fun t => t.1 == k) = some (k, a)
  ∧ ∃ d, s.debounceTimer = some d ∧ k < d ∧ d < s.nextTimerId

/-! ## Sample data -/

/-- The `i`-th of a family of chicken meals with distinct ids. -/
def chickenMeal (i : Nat) : Meal :=
  ⟨String.singleton (Char.ofNat (65 + i)), String.singleton (Char.ofNat (97 + i)), "Chicken", ""⟩

/-- Twenty chicken meals. -/
def twentyMeals : List Meal := (List.range 20).map chickenMeal

/-- A session showing the last page of twenty meals. -/
def lastPageOfTwenty : State :=
  { initialState "" with allMeals := twentyMeals, filteredMeals := twentyMeals, currentPage := 3 }

/-- A meal of another category. -/
def goatMeal : Meal := ⟨"52968", "Mbuzi Choma (Roasted Goat)", "Goat", ""⟩

/-- A session: the initial Chicken fetch brings twenty meals, the user clicks
page 3, selects category Goat, and that fetch brings one meal. -/
def pageThreeThenGoat : List Event :=
  [ .categoryFetchCompleted (.json (some (twentyMeals.map (fun m => .json (some [m]))))),
    .pageClick 3,
    .categoryChange "Goat",
    .categoryFetchCompleted (.json (some [.json (some [goatMeal])])) ]

/-- One hundred and eighty chicken meals: twenty pages. -/
def manyMeals : List Meal := (List.range 180).map chickenMeal

/-- A session showing page 10 of twenty pages. -/
def pageTenOfTwenty : State :=
  { initialState "" with allMeals := manyMeals, filteredMeals := manyMeals, currentPage := 10 }

/-- A session showing page 4 of twenty pages. -/
def pageFourOfTwenty : State :=
  { initialState "" with allMeals := manyMeals, filteredMeals := manyMeals, currentPage := 4 }

/-- A session on page 1 of twenty meals with no prev/next timer pending. -/
def firstPageOfTwenty : State :=
  { initialState "" with allMeals := twentyMeals, filteredMeals := twentyMeals }

/-! ## Field lemmas -/

section Fields

variable (B : Builtins) (s : State)

@[simp] theorem updatePagination_filteredMeals :
    (updatePagination s).filteredMeals = s.filteredMeals := rfl

@[simp] theorem updatePagination_allMeals : (updatePagination s).allMeals = s.allMeals := rfl

@[simp] theorem updatePagination_currentPage :
    (updatePagination s).currentPage = s.currentPage := rfl

@[simp] theorem updatePagination_mealsContainer :
    (updatePagination s).mealsContainer = s.mealsContainer := rfl

@[simp] theorem renderMeals_filteredMeals : (renderMeals s).filteredMeals = s.filteredMeals := rfl

@[simp] theorem renderMeals_allMeals : (renderMeals s).allMeals = s.allMeals := rfl

@[simp] theorem renderMeals_currentPage : (renderMeals s).currentPage = s.currentPage := rfl

@[simp] theorem renderMeals_throttleTimer : (renderMeals s).throttleTimer = s.throttleTimer := rfl

@[simp] theorem sortMeals_allMeals : (sortMeals B s).allMeals = s.allMeals := rfl

@[simp] theorem sortMeals_currentPage : (sortMeals B s).currentPage = s.currentPage := rfl

@[simp] theorem sortMeals_sortBy : (sortMeals B s).sortBy = s.sortBy := rfl

theorem sortMeals_filteredMeals :
    (sortMeals B s).filteredMeals = arraySort (compareMeals B s.sortBy) s.filteredMeals := rfl

end Fields

/-! ## Sorting -/

section Sorting

variable {α : Type} (cmp : α → α → Int)

theorem arraySort_perm (l : List α) : (arraySort cmp l).Perm l :=
  List.perm_insertionSort _ l

theorem arraySort_length (l : List α) : (arraySort cmp l).length = l.length :=
  (arraySort_perm cmp l).length_eq

theorem arraySort_sorted (hanti : ∀ a b, cmp a b < 0 ↔ 0 < cmp b a)
    (htrans : ∀ a b c, cmp a b ≤ 0 → cmp b c ≤ 0 → cmp a c ≤ 0) (l : List α) :
    (arraySort cmp l).Sorted (fun a b => cmp a b ≤ 0) := by
  haveI : IsTotal α (fun a b => cmp a b ≤ 0) := ⟨fun a b => by
    by_cases h : cmp a b ≤ 0
    · exact Or.inl h
    · exact Or.inr (le_of_lt ((hanti b a).2 (not_le.1 h)))⟩
  haveI : IsTrans α (fun a b => cmp a b ≤ 0) := ⟨htrans⟩
  exact List.sorted_insertionSort _ l

theorem arraySort_idem (hanti : ∀ a b, cmp a b < 0 ↔ 0 < cmp b a)
    (htrans : ∀ a b c, cmp a b ≤ 0 → cmp b c ≤ 0 → cmp a c ≤ 0) (l : List α) :
    arraySort cmp (arraySort cmp l) = arraySort cmp l :=
  List.Sorted.insertionSort_eq (arraySort_sorted cmp hanti htrans l)

/-- Stability: the elements comparing equal to `k` keep their order. -/
theorem arraySort_stable (hanti : ∀ a b, cmp a b < 0 ↔ 0 < cmp b a)
    (htrans : ∀ a b c, cmp a b ≤ 0 → cmp b c ≤ 0 → cmp a c ≤ 0) (k : α) (l : List α) :
    (arraySort cmp l).filter (fun m => decide (cmp m k = 0)) =
      l.filter (fun m => decide (cmp m k = 0)) := by
  induction l with
  | nil => rfl
  | cons a l ih =>
    have hsplit := List.takeWhile_append_dropWhile (fun b => decide ¬ cmp a b ≤ 0)
      (arraySort cmp l)
    have hcons : arraySort cmp (a :: l) =
        (arraySort cmp l).takeWhile (fun b => decide ¬ cmp a b ≤ 0) ++
          a :: (arraySort cmp l).dropWhile (fun b => decide ¬ cmp a b ≤ 0) :=
      List.insertionSort_cons_eq_take_drop (fun a b => cmp a b ≤ 0) a l
    rw [hcons, List.filter_append, List.filter_cons]
    by_cases hak : cmp a k = 0
    · have hnone : ((arraySort cmp l).takeWhile (fun b => decide ¬ cmp a b ≤ 0)).filter
          (fun m => decide (cmp m k = 0)) = [] := by
        rw [List.filter_eq_nil_iff]
        intro b hb hbk
        have hab := List.mem_takeWhile_imp hb
        simp only [decide_eq_true_eq] at hab hbk
        have h1 : ¬ cmp k b < 0 := fun h => by have := (hanti k b).1 h; omega
        have h2 : ¬ 0 < cmp k b := fun h => by have := (hanti b k).2 h; omega
        exact hab (htrans a k b (le_of_eq hak) (by omega))
      have hrest : ((arraySort cmp l).dropWhile (fun b => decide ¬ cmp a b ≤ 0)).filter
          (fun m => decide (cmp m k = 0)) = l.filter (fun m => decide (cmp m k = 0)) := by
        rw [← ih]
        conv_rhs => rw [← hsplit, List.filter_append, hnone, List.nil_append]
      rw [hnone, hrest, List.nil_append, if_pos (by simpa using hak), List.filter_cons,
        if_pos (by simpa using hak)]
    · simp only [hak, decide_False, Bool.false_eq_true, if_false]
      rw [← List.filter_append, hsplit, ih]
      simp [hak]

/-- A comparator that is constantly `0` leaves the array as it is. -/
theorem arraySort_const_zero (l : List α) : arraySort (fun _ _ => (0 : Int)) l = l := by
  induction l with
  | nil => rfl
  | cons a l ih =>
    have : arraySort (fun _ _ => (0 : Int)) (a :: l)
        = (arraySort (fun _ _ => (0 : Int)) l).orderedInsert (fun _ _ => (0 : Int) ≤ 0) a := rfl
    rw [this, ih]
    cases l <;> simp [List.orderedInsert]

end Sorting

theorem compareMeals_antisymm (B : Builtins) (hB : ConsistentCompare B.localeCompare)
    (sortOption : String) (a b : Meal) :
    compareMeals B sortOption a b < 0 ↔ 0 < compareMeals B sortOption b a := by
  unfold compareMeals
  split_ifs
  · exact hB.antisymm _ _
  · exact hB.antisymm _ _
  · simp

theorem compareMeals_trans (B : Builtins) (hB : ConsistentCompare B.localeCompare)
    (sortOption : String) (a b c : Meal) (hab : compareMeals B sortOption a b ≤ 0)
    (hbc : compareMeals B sortOption b c ≤ 0) : compareMeals B sortOption a c ≤ 0 := by
  unfold compareMeals at *
  split_ifs at *
  · exact hB.trans _ _ _ hab hbc
  · exact hB.trans _ _ _ hab hbc
  · exact le_refl 0

theorem asciiBuiltins_consistent : ConsistentCompare asciiBuiltins.localeCompare := by
  constructor
  · intro a b
    simp only [asciiBuiltins]
    rcases lt_trichotomy a b with h | h | h
    · have h1 : ¬ b < a := not_lt.2 (le_of_lt h)
      have h2 : b ≠ a := fun e => (ne_of_lt h) e.symm
      simp [h, h1, h2]
    · subst h
      simp
    · have h1 : ¬ a < b := not_lt.2 (le_of_lt h)
      have h2 : a ≠ b := fun e => (ne_of_lt h) e.symm
      simp [h, h1, h2]
  · intro a b c
    have key : ∀ x y : String, (if x < y then (-1 : Int) else if x = y then 0 else 1) ≤ 0 ↔ x ≤ y := by
      intro x y
      rcases lt_trichotomy x y with h | h | h
      · simp [h, le_of_lt h]
      · subst h
        simp
      · have h1 : ¬ x < y := not_lt.2 (le_of_lt h)
        have h2 : x ≠ y := fun e => (ne_of_lt h) e.symm
        rw [if_neg h1, if_neg h2]
        exact ⟨fun h' => absurd h' (by norm_num),
          fun h' => absurd (lt_of_lt_of_le h h') (lt_irrefl _)⟩
    simp only [asciiBuiltins, key]
    exact le_trans

/-! ## Claims on filtering and sorting -/

/-- C1: after `filterMeals` a meal is in `filteredMeals` exactly when it is in
`allMeals`, the search text is empty or the meal's lower-cased name contains the
lower-cased search text, and the selected category is empty or equals the meal's
category; with both inputs empty nothing is dropped: `filteredMeals` is a
rearrangement of `allMeals`.  The only law of `toLowerCase` used is that it maps
the empty string to itself. -/
theorem filterMeals_mem_iff (B : Builtins) (s : State) (hlower : B.toLowerCase "" = "") :
    (∀ meal : Meal, meal ∈ (filterMeals B s).filteredMeals ↔
        meal ∈ s.allMeals
        ∧ (s.searchInput = "" ∨
            includes (B.toLowerCase meal.strMeal) (B.toLowerCase s.searchInput) = true)
        ∧ (s.categoryFilter = "" ∨ meal.strCategory = s.categoryFilter))
    ∧ (s.searchInput = "" → s.categoryFilter = "" →
        (filterMeals B s).filteredMeals.Perm s.allMeals) := by
  have hincl : ∀ x : String, includes x "" = true := by
    intro x
    simp [includes]
  have hmem : ∀ meal : Meal, meal ∈ (filterMeals B s).filteredMeals ↔
      meal ∈ s.allMeals
      ∧ (s.searchInput = "" ∨
          includes (B.toLowerCase meal.strMeal) (B.toLowerCase s.searchInput) = true)
      ∧ (s.categoryFilter = "" ∨ meal.strCategory = s.categoryFilter) := by
    intro meal
    simp only [filterMeals, renderMeals_filteredMeals, sortMeals_filteredMeals]
    rw [(arraySort_perm _ _).mem_iff, List.mem_filter]
    simp only [Bool.and_eq_true, Bool.or_eq_true, beq_iff_eq]
    constructor
    · rintro ⟨h1, h2, h3⟩
      refine ⟨h1, ?_, h3⟩
      rcases h2 with h2 | h2
      · right
        rw [h2]
        exact hincl _
      · exact Or.inr h2
    · rintro ⟨h1, h2, h3⟩
      refine ⟨h1, ?_, h3⟩
      rcases h2 with h2 | h2
      · left
        rw [h2, hlower]
      · exact Or.inr h2
  refine ⟨hmem, ?_⟩
  intro hs hc
  simp only [filterMeals, renderMeals_filteredMeals, sortMeals_filteredMeals]
  refine (arraySort_perm _ _).trans ?_
  rw [List.filter_eq_self.2]
  intro meal _
  simp [hs, hc, hlower]

/-- The hypothesis of `filterMeals_mem_iff` is met by the ASCII built-ins on a
two-meal list searched for "ch". -/
theorem filterMeals_mem_iff_witness :
    asciiBuiltins.toLowerCase "" = "" ∧
    ∀ meal : Meal,
      meal ∈ (filterMeals asciiBuiltins
          { initialState "name" with
            allMeals := [⟨"1", "Chicken Pie", "Chicken", ""⟩, ⟨"2", "Beef Stew", "Beef", ""⟩]
            searchInput := "CH" }).filteredMeals ↔
        meal ∈ [(⟨"1", "Chicken Pie", "Chicken", ""⟩ : Meal), ⟨"2", "Beef Stew", "Beef", ""⟩]
        ∧ (("CH" : String) = "" ∨
            includes (asciiBuiltins.toLowerCase meal.strMeal) (asciiBuiltins.toLowerCase "CH") = true)
        ∧ (("" : String) = "" ∨ meal.strCategory = "") :=
  ⟨rfl, (filterMeals_mem_iff asciiBuiltins
      { initialState "name" with
        allMeals := [⟨"1", "Chicken Pie", "Chicken", ""⟩, ⟨"2", "Beef Stew", "Beef", ""⟩]
        searchInput := "CH" } rfl).1⟩

/-- C7: `sortMeals` rearranges `filteredMeals`; with key `name` (resp. `category`)
the result is non-decreasing under `localeCompare` of the names (resp.
categories) and, for every string `k`, the meals whose name (resp. category)
compares equal to `k` stand in the order they had before; sorting twice is
sorting once; with any other key the state is unchanged.  `localeCompare` is
assumed to be a consistent comparator. -/
theorem sortMeals_stable_sort (B : Builtins) (s : State)
    (hB : ConsistentCompare B.localeCompare) :
    (sortMeals B s).filteredMeals.Perm s.filteredMeals
    ∧ (s.sortBy = "name" →
        (sortMeals B s).filteredMeals.Sorted
          (fun a b => B.localeCompare a.strMeal b.strMeal ≤ 0)
        ∧ ∀ k : String,
            (sortMeals B s).filteredMeals.filter
                (fun m => decide (B.localeCompare m.strMeal k = 0)) =
              s.filteredMeals.filter (fun m => decide (B.localeCompare m.strMeal k = 0)))
    ∧ (s.sortBy = "category" →
        (sortMeals B s).filteredMeals.Sorted
          (fun a b => B.localeCompare a.strCategory b.strCategory ≤ 0)
        ∧ ∀ k : String,
            (sortMeals B s).filteredMeals.filter
                (fun m => decide (B.localeCompare m.strCategory k = 0)) =
              s.filteredMeals.filter (fun m => decide (B.localeCompare m.strCategory k = 0)))
    ∧ sortMeals B (sortMeals B s) = sortMeals B s
    ∧ (s.sortBy ≠ "name" → s.sortBy ≠ "category" → sortMeals B s = s) := by
  have hanti := compareMeals_antisymm B hB
  have htrans := compareMeals_trans B hB
  refine ⟨arraySort_perm _ _, ?_, ?_, ?_, ?_⟩
  · intro hkey
    have hcmp : compareMeals B s.sortBy = fun a b => B.localeCompare a.strMeal b.strMeal := by
      funext a b
      simp [compareMeals, hkey]
    refine ⟨?_, fun k => ?_⟩
    · have := arraySort_sorted _ (hanti s.sortBy) (htrans s.sortBy) s.filteredMeals
      rw [hcmp] at this
      rw [sortMeals_filteredMeals, hcmp]
      exact this
    · have := arraySort_stable _ (hanti s.sortBy) (htrans s.sortBy) ⟨"", k, "", ""⟩
        s.filteredMeals
      rw [hcmp] at this
      rw [sortMeals_filteredMeals, hcmp]
      exact this
  · intro hkey
    have hne : s.sortBy ≠ "name" := by
      rw [hkey]
      decide
    have hcmp : compareMeals B s.sortBy =
        fun a b => B.localeCompare a.strCategory b.strCategory := by
      funext a b
      simp [compareMeals, hkey]
    refine ⟨?_, fun k => ?_⟩
    · have := arraySort_sorted _ (hanti s.sortBy) (htrans s.sortBy) s.filteredMeals
      rw [hcmp] at this
      rw [sortMeals_filteredMeals, hcmp]
      exact this
    · have := arraySort_stable _ (hanti s.sortBy) (htrans s.sortBy) ⟨"", "", k, ""⟩
        s.filteredMeals
      rw [hcmp] at this
      rw [sortMeals_filteredMeals, hcmp]
      exact this
  · have := arraySort_idem _ (hanti s.sortBy) (htrans s.sortBy) s.filteredMeals
    simp only [sortMeals]
    rw [this]
  · intro h1 h2
    have hcmp : compareMeals B s.sortBy = fun _ _ => (0 : Int) := by
      funext a b
      simp [compareMeals, h1, h2]
    simp only [sortMeals]
    rw [hcmp, arraySort_const_zero]

/-- The ASCII built-ins are a consistent comparator; three meals sorted by name. -/
theorem sortMeals_stable_sort_witness :
    ConsistentCompare asciiBuiltins.localeCompare ∧
    List.Sorted (fun a b => asciiBuiltins.localeCompare a.strMeal b.strMeal ≤ 0)
      (sortMeals asciiBuiltins
        { initialState "name" with
          filteredMeals := [⟨"1", "Pie", "B", ""⟩, ⟨"2", "Cake", "A", ""⟩, ⟨"3", "Pie", "A", ""⟩] }
      ).filteredMeals :=
  ⟨asciiBuiltins_consistent,
    ((sortMeals_stable_sort asciiBuiltins
        { initialState "name" with
          filteredMeals := [⟨"1", "Pie", "B", ""⟩, ⟨"2", "Cake", "A", ""⟩, ⟨"3", "Pie", "A", ""⟩] }
        asciiBuiltins_consistent).2.1 rfl).1⟩

/-! ## Pagination -/

theorem mealsToDisplay_length (s : State) (hp : 1 ≤ s.currentPage) :
    (mealsToDisplay s).length =
      min (s.currentPage * 9).toNat s.filteredMeals.length - ((s.currentPage - 1) * 9).toNat := by
  simp only [mealsToDisplay, slice, mealsPerPage, List.length_take, List.length_drop]
  push_cast
  have h1 : ¬ (s.currentPage - 1) * 9 < 0 := by omega
  have h2 : ¬ (s.currentPage - 1) * 9 + 9 < 0 := by omega
  rw [if_neg h1, if_neg h2]
  omega

theorem mealsToDisplay_getElem? (s : State) (hp : 1 ≤ s.currentPage) (j : Nat)
    (hj : j < min (s.currentPage * 9).toNat s.filteredMeals.length
      - ((s.currentPage - 1) * 9).toNat) :
    (mealsToDisplay s)[j]? = s.filteredMeals[((s.currentPage - 1) * 9).toNat + j]? := by
  simp only [mealsToDisplay, slice, mealsPerPage]
  push_cast
  have h1 : ¬ (s.currentPage - 1) * 9 < 0 := by omega
  have h2 : ¬ (s.currentPage - 1) * 9 + 9 < 0 := by omega
  rw [if_neg h1, if_neg h2]
  have hk : (min ((s.currentPage - 1) * 9) (s.filteredMeals.length : Int)).toNat
      = ((s.currentPage - 1) * 9).toNat := by omega
  rw [List.getElem?_take_of_lt (by omega), List.getElem?_drop, hk]

theorem pageWindow_bounds (T c : Int) (hc1 : 1 ≤ c) (hc2 : c ≤ T) :
    (pageWindow T c).2 - (pageWindow T c).1 + 1 = min 5 T
    ∧ 1 ≤ (pageWindow T c).1 ∧ (pageWindow T c).2 ≤ T
    ∧ (pageWindow T c).1 ≤ c ∧ c ≤ (pageWindow T c).2 := by
  simp only [pageWindow]
  split_ifs <;> omega

/-- C2: on page `p ≥ 1` of a filtered list of `n` meals, `renderMeals` shows the
meals at the indices `(p-1)*9 ≤ i < min (p*9) n` in list order, hence at most 9
cards, and the "no results" placeholder exactly when that range is empty. -/
theorem renderMeals_displays_page (s : State) (hp : 1 ≤ s.currentPage) :
    ∃ shown : List Meal,
      shown.length =
        min (s.currentPage * 9).toNat s.filteredMeals.length - ((s.currentPage - 1) * 9).toNat
      ∧ shown.length ≤ 9
      ∧ (∀ j : Nat, j < shown.length →
          shown[j]? = s.filteredMeals[((s.currentPage - 1) * 9).toNat + j]?)
      ∧ (renderMeals s).mealsContainer =
          (if min (s.currentPage * 9).toNat s.filteredMeals.length
              ≤ ((s.currentPage - 1) * 9).toNat
            then Container.noResults else Container.cards shown) := by
  have hlen := mealsToDisplay_length s hp
  refine ⟨mealsToDisplay s, hlen, ?_, ?_, ?_⟩
  · rw [hlen]
    omega
  · intro j hj
    rw [hlen] at hj
    exact mealsToDisplay_getElem? s hp j hj
  · simp only [renderMeals, updatePagination_mealsContainer]
    rw [hlen]
    by_cases h : min (s.currentPage * 9).toNat s.filteredMeals.length
        ≤ ((s.currentPage - 1) * 9).toNat
    · rw [if_pos h, if_pos (by omega)]
    · rw [if_neg h, if_neg (by omega)]

/-- Page 3 of twenty meals shows the two meals at indices 18 and 19. -/
theorem renderMeals_displays_page_witness :
    (1 : Int) ≤ lastPageOfTwenty.currentPage ∧
    ∃ shown : List Meal, shown.length = 2 ∧
      (renderMeals lastPageOfTwenty).mealsContainer = Container.cards shown := by
  refine ⟨by decide, ?_⟩
  obtain ⟨shown, h1, _, _, h4⟩ := renderMeals_displays_page lastPageOfTwenty (by decide)
  exact ⟨shown, h1, h4⟩

theorem pageWindow_centered (T c : Int) (h1 : 1 ≤ c - 2) (h2 : c + 2 ≤ T) :
    pageWindow T c = (c - 2, c + 2) := by
  simp only [pageWindow, Prod.mk.injEq]
  split_ifs <;> omega

/-- A window starting at page 2, or ending at the last page but one, does not
hold the current page at that end. -/
theorem pageWindow_edge_inactive (T c : Int) (hc1 : 1 ≤ c) :
    ((pageWindow T c).1 = 2 → c ≠ 2) ∧ ((pageWindow T c).2 = T - 1 → c ≠ T - 1) := by
  simp only [pageWindow]
  split_ifs <;> constructor <;> intro h <;> omega

/-- The strip as its three parts, with the window spelled out. -/
theorem pageStrip_eq (T c : Int) :
    pageStrip T c =
      (if (pageWindow T c).1 > 1 then
          addPageNumber c 1 :: (if (pageWindow T c).1 > 2 then [PageItem.ellipsis] else [])
        else [])
      ++ (List.range ((pageWindow T c).2 - (pageWindow T c).1 + 1).toNat).map
          (fun (k : Nat) => addPageNumber c ((pageWindow T c).1 + (k : Int)))
      ++ (if (pageWindow T c).2 < T then
          (if (pageWindow T c).2 < T - 1 then [PageItem.ellipsis] else [])
            ++ [addPageNumber c T]
        else []) := rfl

theorem updatePagination_pageNumbers (s : State) :
    (updatePagination s).pageNumbers = pageStrip (totalPages s) s.currentPage := rfl

/-- The strip for a current page within `[1, T]`: page 1 and page `T`, where
they are added outside the window, are not the active page, and the window has
`min 5 T` buttons. -/
theorem pageStrip_explicit (T c : Int) (hc1 : 1 ≤ c) (hc2 : c ≤ T) :
    pageStrip T c =
      (if 1 < (pageWindow T c).1 then
          PageItem.number 1 false ::
            (if 2 < (pageWindow T c).1 then [PageItem.ellipsis] else [])
        else [])
      ++ (List.range (min 5 T).toNat).map
          (fun (k : Nat) =>
            PageItem.number ((pageWindow T c).1 + (k : Int)) ((pageWindow T c).1 + (k : Int) == c))
      ++ (if (pageWindow T c).2 < T then
          (if (pageWindow T c).2 < T - 1 then [PageItem.ellipsis] else [])
            ++ [PageItem.number T false]
        else []) := by
  obtain ⟨h1, h2, h3, h4, h5⟩ := pageWindow_bounds T c hc1 hc2
  have hone : 1 < (pageWindow T c).1 → addPageNumber c 1 = PageItem.number 1 false := by
    intro h
    have : ¬ (1 : Int) = c := by omega
    simp [addPageNumber, this]
  have hlast : (pageWindow T c).2 < T → addPageNumber c T = PageItem.number T false := by
    intro h
    have : ¬ T = c := by omega
    simp [addPageNumber, this]
  rw [pageStrip_eq, h1]
  by_cases ha : 1 < (pageWindow T c).1 <;> by_cases hb : (pageWindow T c).2 < T
  · rw [if_pos ha, if_pos ha, if_pos hb, if_pos hb, hone ha, hlast hb]
    rfl
  · rw [if_pos ha, if_pos ha, if_neg hb, if_neg hb, hone ha]
    rfl
  · rw [if_neg ha, if_neg ha, if_pos hb, if_pos hb, hlast hb]
    rfl
  · rw [if_neg ha, if_neg ha, if_neg hb, if_neg hb]
    rfl

theorem totalPages_eq (s : State) :
    totalPages s = ((s.filteredMeals.length + 8) / 9 : Nat) := rfl

theorem manyMeals_length : manyMeals.length = 180 := by
  simp [manyMeals]

theorem totalPages_pageTenOfTwenty : totalPages pageTenOfTwenty = 20 := by
  have h : pageTenOfTwenty.filteredMeals.length = 180 := manyMeals_length
  rw [totalPages_eq, h]
  rfl

theorem totalPages_pageFourOfTwenty : totalPages pageFourOfTwenty = 20 := by
  have h : pageFourOfTwenty.filteredMeals.length = 180 := manyMeals_length
  rw [totalPages_eq, h]
  rfl

/-- C4: for `1 ≤ c ≤ totalPages` the strip rendered by `updatePagination` is a
leading part (page 1 and possibly an ellipsis), the buttons of the window
`startPage..endPage`, and a trailing part; the window is a run of
`min 5 totalPages` consecutive pages inside `[1, totalPages]` that contains `c`,
and it is `c-2..c+2` when that run fits; with 20 pages and current page 10 the
rendered strip is `1 … 8 9 10 11 12 … 20`, page 10 being the active one. -/
theorem updatePagination_window (s : State) (hc1 : 1 ≤ s.currentPage)
    (hc2 : s.currentPage ≤ totalPages s) :
    (∃ startPage endPage : Int,
      pageWindow (totalPages s) s.currentPage = (startPage, endPage)
      ∧ endPage - startPage + 1 = min 5 (totalPages s)
      ∧ 1 ≤ startPage ∧ endPage ≤ totalPages s
      ∧ startPage ≤ s.currentPage ∧ s.currentPage ≤ endPage
      ∧ (1 ≤ s.currentPage - 2 → s.currentPage + 2 ≤ totalPages s →
          startPage = s.currentPage - 2 ∧ endPage = s.currentPage + 2)
      ∧ (updatePagination s).pageNumbers =
          (if 1 < startPage then
              PageItem.number 1 false :: (if 2 < startPage then [PageItem.ellipsis] else [])
            else [])
          ++ (List.range (min 5 (totalPages s)).toNat).map
              (fun (k : Nat) =>
                PageItem.number (startPage + (k : Int)) (startPage + (k : Int) == s.currentPage))
          ++ (if endPage < totalPages s then
              (if endPage < totalPages s - 1 then [PageItem.ellipsis] else [])
                ++ [PageItem.number (totalPages s) false]
            else []))
    ∧ (totalPages s = 20 → s.currentPage = 10 →
        (updatePagination s).pageNumbers =
          [.number 1 false, .ellipsis, .number 8 false, .number 9 false, .number 10 true,
            .number 11 false, .number 12 false, .ellipsis, .number 20 false]) := by
  constructor
  · obtain ⟨h1, h2, h3, h4, h5⟩ := pageWindow_bounds (totalPages s) s.currentPage hc1 hc2
    refine ⟨(pageWindow (totalPages s) s.currentPage).1,
      (pageWindow (totalPages s) s.currentPage).2, rfl, h1, h2, h3, h4, h5, ?_, ?_⟩
    · intro h6 h7
      rw [pageWindow_centered _ _ h6 h7]
      exact ⟨rfl, rfl⟩
    · rw [updatePagination_pageNumbers, pageStrip_explicit _ _ hc1 hc2]
  · intro hT hc
    rw [updatePagination_pageNumbers, hT, hc]
    decide

/-- Page 10 of twenty pages: the rendered strip is `1 … 8 9 10 11 12 … 20`. -/
theorem updatePagination_window_witness :
    1 ≤ pageTenOfTwenty.currentPage ∧ pageTenOfTwenty.currentPage ≤ totalPages pageTenOfTwenty
    ∧ (updatePagination pageTenOfTwenty).pageNumbers =
        [.number 1 false, .ellipsis, .number 8 false, .number 9 false, .number 10 true,
          .number 11 false, .number 12 false, .ellipsis, .number 20 false] :=
  have hT : pageTenOfTwenty.currentPage ≤ totalPages pageTenOfTwenty := by
    rw [totalPages_pageTenOfTwenty]
    decide
  ⟨by decide, hT,
    (updatePagination_window pageTenOfTwenty (by decide) hT).2 totalPages_pageTenOfTwenty rfl⟩

/-- C5, as stated, fails: on page 4 of twenty pages the window `2..6` excludes
page 1, yet the strip rendered by `updatePagination` starts `1, 2`, with no
ellipsis after page 1. -/
theorem updatePagination_leading_ellipsis_counterexample :
    1 ≤ pageFourOfTwenty.currentPage
    ∧ pageFourOfTwenty.currentPage ≤ totalPages pageFourOfTwenty
    ∧ pageWindow (totalPages pageFourOfTwenty) pageFourOfTwenty.currentPage = (2, 6)
    ∧ ¬ ([PageItem.number 1 false, PageItem.ellipsis]
          <+: (updatePagination pageFourOfTwenty).pageNumbers)
    ∧ (updatePagination pageFourOfTwenty).pageNumbers =
        [.number 1 false, .number 2 false, .number 3 false, .number 4 true, .number 5 false,
          .number 6 false, .ellipsis, .number 20 false] := by
  rw [updatePagination_pageNumbers, totalPages_pageFourOfTwenty]
  decide

/-- C5, amended: for `1 ≤ c ≤ totalPages` and the window `startPage..endPage`
of `updatePagination`: when the window excludes page 1 the rendered strip
begins with page 1, the next item is an ellipsis exactly when `startPage > 2`,
and when `startPage = 2` page 2 follows directly; when the window excludes the
last page the strip ends with `totalPages`, the item before it is an ellipsis
exactly when `endPage < totalPages - 1`, and when `endPage = totalPages - 1`
page `totalPages - 1` stands directly before it. -/
theorem updatePagination_first_last (s : State) (startPage endPage : Int)
    (hc1 : 1 ≤ s.currentPage) (hc2 : s.currentPage ≤ totalPages s)
    (hw : pageWindow (totalPages s) s.currentPage = (startPage, endPage)) :
    (1 < startPage →
      [PageItem.number 1 false] <+: (updatePagination s).pageNumbers
      ∧ ([PageItem.number 1 false, PageItem.ellipsis] <+: (updatePagination s).pageNumbers
          ↔ 2 < startPage)
      ∧ (startPage = 2 →
          [PageItem.number 1 false, PageItem.number 2 false]
            <+: (updatePagination s).pageNumbers))
    ∧ (endPage < totalPages s →
      [PageItem.number (totalPages s) false] <:+ (updatePagination s).pageNumbers
      ∧ ([PageItem.ellipsis, PageItem.number (totalPages s) false]
            <:+ (updatePagination s).pageNumbers
          ↔ endPage < totalPages s - 1)
      ∧ (endPage = totalPages s - 1 →
          [PageItem.number (totalPages s - 1) false, PageItem.number (totalPages s) false]
            <:+ (updatePagination s).pageNumbers)) := by
  obtain ⟨h1, h2, h3, h4, h5⟩ := pageWindow_bounds (totalPages s) s.currentPage hc1 hc2
  obtain ⟨e1, e2⟩ := pageWindow_edge_inactive (totalPages s) s.currentPage hc1
  have hstrip := pageStrip_explicit (totalPages s) s.currentPage hc1 hc2
  rw [hw] at h1 h2 h3 h4 h5 e1 e2 hstrip
  simp only at h1 h2 h3 h4 h5 e1 e2 hstrip
  obtain ⟨n, hn⟩ : ∃ n, (min 5 (totalPages s)).toNat = n + 1 :=
    ⟨(min 5 (totalPages s)).toNat - 1, by omega⟩
  rw [updatePagination_pageNumbers, hstrip, hn]
  constructor
  · intro hs
    rw [if_pos hs, List.range_succ_eq_map]
    by_cases h : 2 < startPage
    · rw [if_pos h]
      refine ⟨by simp, ⟨fun _ => h, fun _ => by simp⟩, fun h2' => by omega⟩
    · rw [if_neg h]
      have hs2 : startPage = 2 := by omega
      have hc : ¬ s.currentPage = 2 := e1 hs2
      have hc' : ¬ (2 : Int) = s.currentPage := fun e => hc e.symm
      subst hs2
      refine ⟨by simp, ⟨fun hpre => ?_, fun h' => absurd h' h⟩, fun _ => ?_⟩
      · exfalso
        simp at hpre
      · simp [hc']
  · intro he
    rw [if_pos he, List.range_succ]
    have hlastidx : startPage + (n : Int) = endPage := by omega
    by_cases h : endPage < totalPages s - 1
    · rw [if_pos h]
      refine ⟨?_, ⟨fun _ => h, fun _ => ?_⟩, fun h' => by omega⟩
      · rw [← List.reverse_prefix]
        simp
      · rw [← List.reverse_prefix]
        simp
    · rw [if_neg h]
      have he2 : endPage = totalPages s - 1 := by omega
      have hc : ¬ s.currentPage = totalPages s - 1 := e2 he2
      have hc' : ¬ endPage = s.currentPage := fun e => hc (by omega)
      refine ⟨?_, ⟨fun hsuf => ?_, fun h' => absurd h' h⟩, fun _ => ?_⟩
      · rw [← List.reverse_prefix]
        simp
      · exfalso
        rw [List.map_append, ← List.reverse_prefix] at hsuf
        simp at hsuf
      · rw [List.map_append, ← List.reverse_prefix]
        simp [hlastidx, hc', he2.symm]

/-- Page 4 of twenty pages: the strip begins `1, 2` and ends with an ellipsis
and page 20. -/
theorem updatePagination_first_last_witness :
    1 ≤ pageFourOfTwenty.currentPage
    ∧ pageFourOfTwenty.currentPage ≤ totalPages pageFourOfTwenty
    ∧ pageWindow (totalPages pageFourOfTwenty) pageFourOfTwenty.currentPage = (2, 6)
    ∧ [PageItem.number 1 false, PageItem.number 2 false]
        <+: (updatePagination pageFourOfTwenty).pageNumbers
    ∧ [PageItem.ellipsis, PageItem.number (totalPages pageFourOfTwenty) false]
        <:+ (updatePagination pageFourOfTwenty).pageNumbers :=
  have hT : pageFourOfTwenty.currentPage ≤ totalPages pageFourOfTwenty := by
    rw [totalPages_pageFourOfTwenty]
    decide
  have hw : pageWindow (totalPages pageFourOfTwenty) pageFourOfTwenty.currentPage = (2, 6) := by
    rw [totalPages_pageFourOfTwenty]
    decide
  have h6 : (6 : Int) < totalPages pageFourOfTwenty - 1 := by
    rw [totalPages_pageFourOfTwenty]
    decide
  ⟨by decide, hT, hw,
    ((updatePagination_first_last pageFourOfTwenty 2 6 (by decide) hT hw).1 (by decide)).2.2 rfl,
    ((updatePagination_first_last pageFourOfTwenty 2 6 (by decide) hT hw).2
      (by omega)).2.1.2 h6⟩

/-- C9: with at least one filtered meal and a current page `p ≥ 1` (so in
particular for `1 ≤ p ≤ totalPages`), `updatePagination` disables Next exactly on the last page and Prev exactly on
page 1; with 20 meals there are 3 pages, page 1 shows 9 cards and Next is
disabled only on page 3. -/
theorem updatePagination_disables_at_boundaries (s : State)
    (hn : 1 ≤ s.filteredMeals.length) (hp1 : 1 ≤ s.currentPage) :
    ((updatePagination s).nextDisabled = true ↔ s.currentPage = totalPages s)
    ∧ ((updatePagination s).prevDisabled = true ↔ s.currentPage = 1)
    ∧ (s.filteredMeals.length = 20 →
        totalPages s = 3
        ∧ (s.currentPage = 1 →
            ∃ shown : List Meal, shown.length = 9 ∧
              (renderMeals s).mealsContainer = Container.cards shown)
        ∧ ((renderMeals s).nextDisabled = true ↔ s.currentPage = 3)) := by
  have hT : 1 ≤ totalPages s := by
    rw [totalPages_eq]
    omega
  have hnext : (updatePagination s).nextDisabled = true ↔ s.currentPage = totalPages s := by
    have h0 : ¬ totalPages s = 0 := by omega
    simp [updatePagination, h0]
  refine ⟨hnext, by simp [updatePagination], ?_⟩
  intro h20
  have h3 : totalPages s = 3 := by
    rw [totalPages_eq, h20]
    rfl
  refine ⟨h3, ?_, ?_⟩
  · intro h1
    obtain ⟨shown, hl, _, _, hc⟩ := renderMeals_displays_page s hp1
    rw [h1, h20] at hl hc
    exact ⟨shown, hl, hc⟩
  · have : (renderMeals s).nextDisabled = (updatePagination s).nextDisabled := rfl
    rw [this, hnext, h3]

/-- Twenty meals on page 3: Next is disabled. -/
theorem updatePagination_disables_at_boundaries_witness :
    1 ≤ lastPageOfTwenty.filteredMeals.length ∧ 1 ≤ lastPageOfTwenty.currentPage ∧
    totalPages lastPageOfTwenty = 3 ∧
    (updatePagination lastPageOfTwenty).nextDisabled = true :=
  ⟨by decide, by decide,
    ((updatePagination_disables_at_boundaries lastPageOfTwenty (by decide) (by decide)).2.2
      (by decide)).1,
    (updatePagination_disables_at_boundaries lastPageOfTwenty (by decide) (by decide)).1.2
      (by decide)⟩

/-! ## Throttled prev/next, fetch failure, page bound -/

/-- C6: from a state with no pending prev/next timer and a current page below
the page count, two Next clicks followed by the timer firing advance the page
by exactly one (the second click changes nothing, and nothing is left pending
afterwards); in any state with a pending timer a Prev or Next click changes
nothing. -/
theorem throttle_drops_second_click (s : State) (hidle : s.throttleTimer = none)
    (hpage : s.currentPage < totalPages s) :
    (throttleFires (onNextClick (onNextClick s))).currentPage = s.currentPage + 1
    ∧ (throttleFires (onNextClick (onNextClick s))).filteredMeals = s.filteredMeals
    ∧ (throttleFires (onNextClick (onNextClick s))).throttleTimer = none
    ∧ throttleFires (throttleFires (onNextClick (onNextClick s)))
        = throttleFires (onNextClick (onNextClick s))
    ∧ ∀ t : State, t.throttleTimer ≠ none → onNextClick t = t ∧ onPrevClick t = t := by
  have h1 : onNextClick s = { s with throttleTimer := some .next } := by
    simp [onNextClick, hidle]
  have h2 : onNextClick (onNextClick s) = onNextClick s := by
    rw [h1]
    simp [onNextClick]
  have hT : totalPages { s with throttleTimer := some ThrottleAction.next } = totalPages s := rfl
  have h3 : throttleFires (onNextClick s) =
      { renderMeals { s with throttleTimer := some .next, currentPage := s.currentPage + 1 }
        with throttleTimer := none } := by
    rw [h1]
    simp only [throttleFires, hT]
    rw [if_pos hpage]
  rw [h2, h3]
  refine ⟨rfl, rfl, rfl, rfl, ?_⟩
  intro t ht
  have hsome : t.throttleTimer.isSome = true := by
    cases h : t.throttleTimer with
    | none => exact absurd h ht
    | some a => rfl
  simp [onNextClick, onPrevClick, hsome]

/-- On page 1 of twenty meals two Next clicks and the timer lead to page 2. -/
theorem throttle_drops_second_click_witness :
    firstPageOfTwenty.throttleTimer = none ∧ firstPageOfTwenty.currentPage < totalPages firstPageOfTwenty ∧
    (throttleFires (onNextClick (onNextClick firstPageOfTwenty))).currentPage = 2 :=
  ⟨rfl, by decide, (throttle_drops_second_click firstPageOfTwenty rfl (by decide)).1⟩

/-- C8, as stated, fails: a failed category request on a session holding twenty
meals leaves both lists with their twenty meals. -/
theorem fetchMealsByCategory_error_counterexample :
    (fetchMealsByCategory asciiBuiltins lastPageOfTwenty .error).allMeals ≠ []
    ∧ (fetchMealsByCategory asciiBuiltins lastPageOfTwenty .error).filteredMeals ≠ [] := by
  decide

/-- C8, amended: when the category request fails, `fetchMealsByCategory`
changes nothing: the full list, the filtered list, the page and the view are
what they were before the call. -/
theorem fetchMealsByCategory_error_unchanged (B : Builtins) (s : State) :
    fetchMealsByCategory B s .error = s
    ∧ (fetchMealsByCategory B s .error).allMeals = s.allMeals
    ∧ (fetchMealsByCategory B s .error).filteredMeals = s.filteredMeals :=
  ⟨rfl, rfl, rfl⟩

/-- C3 fails on the code: after the session `pageThreeThenGoat` the filtered
list has one meal (one page) while `currentPage` is still 3, and the page shows
the "no results" placeholder. -/
theorem currentPage_bound_violated :
    (run asciiBuiltins "" pageThreeThenGoat).filteredMeals = [goatMeal]
    ∧ (run asciiBuiltins "" pageThreeThenGoat).currentPage = 3
    ∧ ¬ ((run asciiBuiltins "" pageThreeThenGoat).currentPage
          ≤ max 1 (totalPages (run asciiBuiltins "" pageThreeThenGoat)))
    ∧ (run asciiBuiltins "" pageThreeThenGoat).mealsContainer = Container.noResults := by
  decide

/-- The sibling paths that replace `filteredMeals` reset the page. -/
theorem filterMeals_and_suggestionClick_reset_page (B : Builtins) (s : State) (meal : Meal) :
    (filterMeals B s).currentPage = 1 ∧ (suggestionClick s meal).currentPage = 1 :=
  ⟨rfl, rfl⟩

/-! ## The search input's timers -/

theorem trim_data (v : String) :
    (trim v).data = (v.data.dropWhile isJSWhiteSpace).rdropWhile isJSWhiteSpace := rfl

theorem dropWhile_rdropWhile_of_fixed (p : Char → Bool) (l : List Char)
    (h : l.dropWhile p = l) : (l.rdropWhile p).dropWhile p = l.rdropWhile p := by
  cases hr : l.rdropWhile p with
  | nil => rfl
  | cons x xs =>
    obtain ⟨t, ht⟩ : x :: xs <+: l := hr ▸ List.rdropWhile_prefix p l
    have hx : ¬ p x = true := by
      intro hpx
      have hlen := congrArg List.length h
      rw [← ht] at hlen
      simp only [List.cons_append, List.dropWhile_cons_of_pos hpx, List.length_cons] at hlen
      have := (List.dropWhile_sublist p (l := xs ++ t)).length_le
      omega
    exact List.dropWhile_cons_of_neg hx

theorem trim_trim (v : String) : trim (trim v) = trim v := by
  have h : (trim (trim v)).data = (trim v).data := by
    rw [trim_data (trim v), trim_data v,
      dropWhile_rdropWhile_of_fixed _ _ (List.dropWhile_idempotent _ _),
      List.rdropWhile_idempotent]
  exact String.ext h

theorem trim_ne_empty_of_jsLength (v : String) (hlen : 1 < jsLength v) : v ≠ "" := by
  rintro rfl
  exact absurd hlen (by decide)

theorem onSearchInput_searchRequests (s : State) (value : String) :
    (onSearchInput s value).searchRequests = s.searchRequests := by
  unfold onSearchInput
  cases s.debounceTimer <;> simp only [clearTimeout, setTimeout] <;> split_ifs <;> rfl

theorem onSearchInput_long (s : State) (value : String) (hlen : 1 < jsLength (trim value)) :
    (onSearchInput s value).timers =
        (clearTimeout s s.debounceTimer).timers ++
          [(s.nextTimerId, .searchMealsByName (trim value)), (s.nextTimerId + 1, .filterMeals)]
    ∧ (onSearchInput s value).debounceTimer = some (s.nextTimerId + 1)
    ∧ (onSearchInput s value).nextTimerId = s.nextTimerId + 2 := by
  unfold onSearchInput
  cases hd : s.debounceTimer <;>
    simp [clearTimeout, setTimeout, hd, hlen]

theorem onSearchInput_any (s : State) (value : String) :
    ∃ extra : List (Nat × TimerAction),
      (onSearchInput s value).timers = (clearTimeout s s.debounceTimer).timers ++ extra
      ∧ (∀ t ∈ extra, s.nextTimerId ≤ t.1)
      ∧ ∃ d, (onSearchInput s value).debounceTimer = some d ∧ s.nextTimerId ≤ d
          ∧ d < (onSearchInput s value).nextTimerId := by
  by_cases hlen : 1 < jsLength (trim value)
  · obtain ⟨h1, h2, h3⟩ := onSearchInput_long s value hlen
    refine ⟨_, h1, ?_, _, h2, by omega, by omega⟩
    intro t ht
    simp only [List.mem_cons, List.mem_singleton, List.not_mem_nil, or_false] at ht
    rcases ht with rfl | rfl <;> simp
  · refine ⟨[(s.nextTimerId, .filterMeals)], ?_, ?_, s.nextTimerId, ?_, le_refl _, ?_⟩
    · unfold onSearchInput
      cases hd : s.debounceTimer <;> simp [clearTimeout, setTimeout, hd, hlen]
    · intro t ht
      simp only [List.mem_singleton] at ht
      rw [ht]
    · unfold onSearchInput
      cases hd : s.debounceTimer <;> simp [clearTimeout, setTimeout, hd, hlen]
    · unfold onSearchInput
      cases hd : s.debounceTimer <;> simp [clearTimeout, setTimeout, hd, hlen]

theorem timerKept_onSearchInput {k : Nat} {a : TimerAction} {s : State}
    (h : TimerKept k a s) (value : String) : TimerKept k a (onSearchInput s value) := by
  obtain ⟨hfind, d, hd, hkd, hdn⟩ := h
  obtain ⟨extra, ht, _, d', hd', hle, hlt⟩ := onSearchInput_any s value
  refine ⟨?_, d', hd', by omega, hlt⟩
  rw [ht, List.find?_append, hd]
  simp only [clearTimeout, List.find?_filter]
  have : (fun t : Nat × TimerAction => decide ((t.1 != d) = true ∧ (t.1 == k) = true))
      = fun t => t.1 == k := by
    funext t
    by_cases htk : t.1 = k
    · have : t.1 ≠ d := by omega
      simp [htk, this]
      omega
    · simp [htk]
  rw [this, hfind]
  rfl

theorem timerKept_foldl {k : Nat} {a : TimerAction} (later : List String) :
    ∀ {s : State}, TimerKept k a s → TimerKept k a (later.foldl onSearchInput s) := by
  induction later with
  | nil => exact fun h => h
  | cons v vs ih => exact fun h => ih (timerKept_onSearchInput h v)

theorem foldl_onSearchInput_searchRequests (later : List String) :
    ∀ s : State, (later.foldl onSearchInput s).searchRequests = s.searchRequests := by
  induction later with
  | nil => exact fun _ => rfl
  | cons v vs ih => exact fun s => (ih _).trans (onSearchInput_searchRequests s v)

theorem timerFires_searchRequests (B : Builtins) (s : State) (k : Nat) (term : String)
    (hfind : s.timers.find? (fun t => t.1 == k) = some (k, .searchMealsByName term))
    (hterm : trim term ≠ "") :
    (timerFires B s k).searchRequests = s.searchRequests ++ [term] := by
  unfold timerFires
  rw [hfind]
  simp only [searchMealsByName]
  rw [if_neg hterm]

/-- C10, as stated, fails: after typing "ab" into a fresh session both timers
are pending, the handle names the filter timer only, and the suggestion-search
timer fires and issues the request for "ab"; a further keystroke cancels the
filter timer and leaves the first suggestion-search timer pending. -/
theorem suggestion_timer_fires_counterexample :
    1 < jsLength (trim "ab")
    ∧ (onSearchInput (initialState "") "ab").timers =
        [(1, .searchMealsByName "ab"), (2, .filterMeals)]
    ∧ (onSearchInput (initialState "") "ab").debounceTimer = some 2
    ∧ (timerFires asciiBuiltins (onSearchInput (initialState "") "ab") 1).searchRequests = ["ab"]
    ∧ (onSearchInput (onSearchInput (initialState "") "ab") "abc").timers =
        [(1, .searchMealsByName "ab"), (3, .searchMealsByName "abc"), (4, .filterMeals)] := by
  decide

theorem clearTimeout_find?_fresh (s : State) (k : Nat) (hk : s.nextTimerId ≤ k)
    (hfresh : ∀ t ∈ s.timers, t.1 < s.nextTimerId) :
    (clearTimeout s s.debounceTimer).timers.find? (fun t => t.1 == k) = none := by
  rw [List.find?_eq_none]
  intro t htmem
  have hmem : t ∈ s.timers := by
    cases hdb : s.debounceTimer with
    | none =>
      rw [hdb] at htmem
      exact htmem
    | some d =>
      rw [hdb] at htmem
      exact (List.mem_filter.1 htmem).1
  have := hfresh t hmem
  simp only [beq_iff_eq]
  omega

theorem timerKept_after_input (s : State) (value : String)
    (hfresh : ∀ t ∈ s.timers, t.1 < s.nextTimerId) (hlen : 1 < jsLength (trim value)) :
    TimerKept s.nextTimerId (.searchMealsByName (trim value)) (onSearchInput s value) := by
  obtain ⟨ht, hd, hn⟩ := onSearchInput_long s value hlen
  refine ⟨?_, s.nextTimerId + 1, hd, by omega, by omega⟩
  rw [ht, List.find?_append, clearTimeout_find?_fresh s _ (le_refl _) hfresh]
  simp

/-- The suggestion-search timer of a keystroke survives every later keystroke:
`clearTimeout(debounceTimer)` only ever cancels a filter timer. -/
theorem suggestion_timer_survives_keystrokes (B : Builtins) (s : State) (value : String)
    (later : List String) (hfresh : ∀ t ∈ s.timers, t.1 < s.nextTimerId)
    (hlen : 1 < jsLength (trim value)) :
    (s.nextTimerId, TimerAction.searchMealsByName (trim value)) ∈
        (later.foldl onSearchInput (onSearchInput s value)).timers
    ∧ (timerFires B (later.foldl onSearchInput (onSearchInput s value)) s.nextTimerId).searchRequests
        = s.searchRequests ++ [trim value] := by
  have hlater := timerKept_foldl later (timerKept_after_input s value hfresh hlen)
  refine ⟨List.mem_of_find?_eq_some hlater.1, ?_⟩
  rw [timerFires_searchRequests B _ _ _ hlater.1
      (by rw [trim_trim]; exact trim_ne_empty_of_jsLength _ hlen),
    foldl_onSearchInput_searchRequests, onSearchInput_searchRequests]

/-- C10, amended: after a keystroke whose trimmed text is longer than one
character (in a state whose pending handles are all below the next handle),
the suggestion-search timer and the filter timer are both pending and
`debounceTimer` holds the handle of the filter timer only; the suggestion-search
timer is not replaced: when it fires it issues the search request for the
trimmed text, and the filter timer, when it fires, runs `filterMeals`. -/
theorem suggestion_timer_stays_pending (B : Builtins) (s : State) (value : String)
    (hfresh : ∀ t ∈ s.timers, t.1 < s.nextTimerId) (hlen : 1 < jsLength (trim value)) :
    (onSearchInput s value).debounceTimer = some (s.nextTimerId + 1)
    ∧ (onSearchInput s value).timers =
        (clearTimeout s s.debounceTimer).timers ++
          [(s.nextTimerId, .searchMealsByName (trim value)), (s.nextTimerId + 1, .filterMeals)]
    ∧ (timerFires B (onSearchInput s value) s.nextTimerId).searchRequests
        = s.searchRequests ++ [trim value]
    ∧ timerFires B (onSearchInput s value) (s.nextTimerId + 1) =
        filterMeals B
          { onSearchInput s value with
            timers := (onSearchInput s value).timers.filter
              (fun t => t.1 != s.nextTimerId + 1) } := by
  obtain ⟨ht, hd, hn⟩ := onSearchInput_long s value hlen
  have hkept := timerKept_after_input s value hfresh hlen
  refine ⟨hd, ht, ?_, ?_⟩
  · rw [timerFires_searchRequests B _ _ _ hkept.1
        (by rw [trim_trim]; exact trim_ne_empty_of_jsLength _ hlen),
      onSearchInput_searchRequests]
  · have hfind : (onSearchInput s value).timers.find? (fun t => t.1 == s.nextTimerId + 1)
        = some (s.nextTimerId + 1, .filterMeals) := by
      rw [ht, List.find?_append, clearTimeout_find?_fresh s _ (by omega) hfresh]
      simp
    unfold timerFires
    rw [hfind]

/-- Typing "ab" into a fresh session: the suggestion-search timer fires the
search for "ab". -/
theorem suggestion_timer_stays_pending_witness :
    (∀ t ∈ (initialState "").timers, t.1 < (initialState "").nextTimerId)
    ∧ 1 < jsLength (trim "ab")
    ∧ (timerFires asciiBuiltins (onSearchInput (initialState "") "ab")
          (initialState "").nextTimerId).searchRequests
        = (initialState "").searchRequests ++ [trim "ab"] :=
  ⟨by decide, by decide,
    (suggestion_timer_stays_pending asciiBuiltins (initialState "") "ab"
      (by decide) (by decide)).2.2.1⟩

end MealExplorer
